import Mathlib

/-!
# Verification of the Yandex image scraper core

Shallow embedding of `yandex_image_scraper.py` (class `YandexImageScraper`):
the URL-extraction protocol (`_extract_image_urls`), the scroll step
(`_scroll_page`), the download pipeline (the per-URL loop in
`search_and_download` / `reverse_image_search` and `_download_image`),
and the top-level run skeletons.

Strings are modelled as `List Char` (`Str`), matching Python's character
sequences; all string utilities below mirror the Python library functions
the source calls (`str.split`, `str.strip`, `str.lower`, substring `in`,
`urllib.parse.urlparse` / `parse_qs`).  Percent-escapes are decoded to the
character of their byte value, which coincides with Python's `unquote` on
ASCII data.  All definitions are structural recursions, so they evaluate
inside the kernel (`decide` / `rfl`).
-/

set_option autoImplicit false

namespace YandexScraper

/-- Character-list model of Python strings. -/
abbrev Str := List Char

/-- Python truthiness of an optional string attribute value:
`None` and the empty string are falsy. -/
def truthy : Option Str → Bool
  | none => false
  | some s => !s.isEmpty

/-- Python `s.lower()` (faithful on ASCII). -/
def lowerL (s : Str) : Str := s.map Char.toLower

/-- Python substring containment `pat in hay`. -/
def containsSubL (hay pat : Str) : Bool :=
  pat.isPrefixOf hay ||
    match hay with
    | [] => false
    | _ :: t => containsSubL t pat

/-- Worker for `splitOnL`: scans `hay`, emitting the accumulator whenever the
(nonempty) separator is a prefix; `skip` counts separator characters still to
be consumed after a match. -/
def splitGo (sep : Str) : Str → Str → Nat → List Str
  | [], acc, _ => [acc.reverse]
  | _ :: rest, acc, Nat.succ k => splitGo sep rest acc k
  | c :: rest, acc, 0 =>
    if sep.isPrefixOf (c :: rest) then
      acc.reverse :: splitGo sep rest [] (sep.length - 1)
    else
      splitGo sep rest (c :: acc) 0

/-- Python `hay.split(sep)` for a nonempty literal separator. -/
def splitOnL (sep hay : Str) : List Str :=
  if sep.isEmpty then [hay] else splitGo sep hay [] 0

/-- Python `s.split()` (no argument): split on whitespace runs, no empties. -/
def splitWsL : Str → Str → List Str
  | [], acc => if acc.isEmpty then [] else [acc.reverse]
  | c :: rest, acc =>
    if c.isWhitespace then
      if acc.isEmpty then splitWsL rest [] else acc.reverse :: splitWsL rest []
    else
      splitWsL rest (c :: acc)

/-- Python `s.split()`. -/
def splitWs (s : Str) : List Str := splitWsL s []

/-- Python `s.strip()`. -/
def stripL (s : Str) : Str :=
  ((s.dropWhile Char.isWhitespace).reverse.dropWhile Char.isWhitespace).reverse

/-- Value of a hexadecimal digit, as used by `urllib.parse.unquote`. -/
def hexVal (c : Char) : Option Nat :=
  if '0' ≤ c ∧ c ≤ '9' then some (c.toNat - '0'.toNat)
  else if 'a' ≤ c ∧ c ≤ 'f' then some (c.toNat - 'a'.toNat + 10)
  else if 'A' ≤ c ∧ c ≤ 'F' then some (c.toNat - 'A'.toNat + 10)
  else none

/-- Decoding of the parts following each `%` after splitting on `%`, exactly
as `urllib.parse.unquote` proceeds: a part starting with two hex digits has
them decoded to the character of the byte value, otherwise the `%` is kept
literally (faithful on ASCII data). -/
def unquoteParts : List Str → Str
  | [] => []
  | p :: ps =>
    (match p with
     | a :: b :: rest =>
       (match hexVal a, hexVal b with
        | some x, some y => Char.ofNat (16 * x + y) :: rest
        | _, _ => '%' :: p)
     | _ => '%' :: p) ++ unquoteParts ps

/-- Percent-decoding (`urllib.parse.unquote`, ASCII-faithful). -/
def pctDecode (s : Str) : Str :=
  match splitOnL "%".data s with
  | [] => []
  | first :: parts => first ++ unquoteParts parts

/-- One field of `parse_qsl`: `'+'` to space, then percent-decode. -/
def decodePart (s : Str) : Str :=
  pctDecode (s.map fun c => if c = '+' then ' ' else c)

/-- Model of `urllib.parse.urlparse(href).query`: drop the fragment (after the first
`#`), then take everything after the first `?`. -/
def queryOf (href : Str) : Str :=
  let preFrag :=
    match splitOnL "#".data href with
    | h :: _ => h
    | [] => []
  match splitOnL "?".data preFrag with
  | _ :: rest => List.intercalate "?".data rest
  | [] => []

/-- Model of `urllib.parse.parse_qs` on a query string (default options: fields split
on `&`, a field without `=` or with a blank raw value is dropped, names and
values are `+`/percent-decoded), flattened to the ordered pair list. -/
def parseQs (query : Str) : List (Str × Str) :=
  (splitOnL "&".data query).filterMap fun field =>
    if field.isEmpty then none
    else
      match splitOnL "=".data field with
      | [_] => none
      | name :: vparts =>
        let value := List.intercalate "=".data vparts
        if value.isEmpty then none
        else some (decodePart name, decodePart value)
      | [] => none

/-- The `img_url` extraction the source performs on a link href
(`urlparse`, `parse_qs`, `params['img_url'][0]`): first value of the
`img_url` parameter, if present. -/
def imgUrlParam (href : Str) : Option Str :=
  (parseQs (queryOf href)).findSome? fun p =>
    if p.1 = "img_url".data then some p.2 else none

example :
    imgUrlParam "https://yandex.com/images/search?img_url=http%3A%2F%2Fa.example.com%2Fx.jpg&rpt=simage".data
      = some "http://a.example.com/x.jpg".data := by decide

example : splitWs "  a b\t c ".data = ["a".data, "b".data, "c".data] := by decide

example : containsSubL "abcdef".data "cde".data = true := by decide
example : containsSubL "abcdef".data "cdf".data = false := by decide

/-!
## DOM snapshot model

A `Snapshot` is the scraper's view of one rendered page state: the hrefs of
the anchors matched by `a[href*="img_url="]` (method 1), the image elements
returned by `find_elements` per CSS selector (method 2), and whether any
clickable result item exists (the recovery fallback's
`.serp-item, .serp-item__link, a[class*="serp"]` query).  `get_attribute`
returning `None` is `Option.none`; a raised per-element lookup is folded into
an absent value where the source catches and skips it.  Debug mode
(`self.debug`) is fixed to `False`, so the debug-only blocks of the source
(including the debug-gated XPath camera search) are omitted.
-/

/-- The JSON parse of an element's `data-bem` attribute, as the source
consumes it: `json.loads` may fail (`malformed`, caught by the bare
`except`), may yield a non-dict (`nondict`, skipped by the `isinstance`
check), or a dict, modelled as an ordered string-to-string association list
(the only shape the source's key probing can use). -/
inductive BemData where
  | malformed
  | nondict
  | dict (kvs : List (String × Str))

/-- One `<img>` element handle: its attribute map (`get_attribute`), the
JSON view of `data-bem`, and the `href` of its immediate parent (`None` when
absent or when the parent lookup raised, which the source swallows). -/
structure ImgElem where
  attrs : List (String × Str)
  dataBem : Option BemData := none
  parentHref : Option Str := none

/-- Model of `img.get_attribute(name)`. -/
def getAttr (e : ImgElem) (name : String) : Option Str :=
  e.attrs.lookup name

/-- One DOM snapshot. -/
structure Snapshot where
  anchorHrefs : List (Option Str)
  elems : String → List ImgElem
  clickableItems : Bool

/-!
## URL extractor (`_extract_image_urls`)
-/

/-- The attributes probed in order by method 2 (lines 258-261 of the
source): `src`, `data-src`, `data-image`, `data-url`, `data-lazy-src`. -/
def attrNames : List String :=
  ["src", "data-src", "data-image", "data-url", "data-lazy-src"]

/-- Python `src and src.startswith('http')` on an optional value. -/
def httpOk : Option Str → Bool
  | none => false
  | some s => "http".data.isPrefixOf s

/-- The attribute-probing `for attr in [...]` loop: `src` is reassigned to
each attribute's value in turn, breaking on the first truthy value starting
with `http`; when no probe succeeds `src` retains the value of the last
attribute tried. -/
def probeAttrs (e : ImgElem) : List String → Option Str
  | [] => none
  | [a] => getAttr e a
  | a :: b :: rest =>
    let v := getAttr e a
    if httpOk v then v else probeAttrs e (b :: rest)

/-- The `srcset` fallback (lines 264-269): only entered when `src` is falsy;
`urls = [u.strip().split()[0] for u in srcset.split(',')]` raises
`IndexError` when any comma segment is whitespace-only, which the
per-element handler turns into skipping the element (`.error`); otherwise
`src` is set to the first token when it starts with `http`. -/
def srcsetStep (e : ImgElem) (src : Option Str) : Except Unit (Option Str) :=
  if truthy src then .ok src
  else
    match getAttr e "srcset" with
    | none => .ok src
    | some ss =>
      if ss.isEmpty then .ok src
      else
        match (splitOnL ",".data ss).mapM (fun u => (splitWs (stripL u)).head?) with
        | none => .error ()
        | some urls =>
          match urls with
          | u :: _ => if "http".data.isPrefixOf u then .ok (some u) else .ok src
          | [] => .ok src

/-- Keys probed inside a parsed `data-bem` dict, in order. -/
def bemKeys : List String := ["url", "img_url", "origin_url", "preview_url"]

/-- The `for key in [...]` scan over a `data-bem` dict: `src` is assigned the
value of each present key, breaking as soon as the assigned value is truthy. -/
def bemScan (kvs : List (String × Str)) : List String → Option Str → Option Str
  | [], src => src
  | k :: ks, src =>
    match kvs.lookup k with
    | some v => if v.isEmpty then bemScan kvs ks (some v) else some v
    | none => bemScan kvs ks src

/-- The `data-bem` fallback (lines 272-284): only when `src` is falsy; a
JSON parse failure or a non-dict value leaves `src` unchanged. -/
def bemStep (e : ImgElem) (src : Option Str) : Option Str :=
  if truthy src then src
  else
    match e.dataBem with
    | some (BemData.dict kvs) => bemScan kvs bemKeys src
    | _ => src

/-- The parent-href fallback (lines 287-297): only when `src` is falsy; the
parent's `href` must be truthy and contain `img_url=`, and `src` becomes the
first `img_url` query parameter value when present. -/
def parentStep (e : ImgElem) (src : Option Str) : Option Str :=
  if truthy src then src
  else
    match e.parentHref with
    | none => src
    | some href =>
      if !href.isEmpty && containsSubL href "img_url=".data then
        match imgUrlParam href with
        | some v => some v
        | none => src
      else src

/-- Outcome of processing one image element: `skipped` covers the
`cbir-intent__thumb` `continue` and the per-element exception handler
(both of which bypass the quota check at line 307). -/
inductive ElemStep where
  | skipped
  | cand (src : Option Str)

/-- Per-element processing of method 2 (lines 224-305, debug off): skip the
reverse-search thumbnail, then run the probe chain. -/
def processElem (e : ImgElem) : ElemStep :=
  let cls := (getAttr e "class").getD []
  if containsSubL cls "cbir-intent__thumb".data then .skipped
  else
    match srcsetStep e (probeAttrs e attrNames) with
    | .error _ => .skipped
    | .ok s1 => .cand (parentStep e (bemStep e s1))

/-- The exclusion vocabulary of line 302. -/
def exclusions : List Str :=
  ["avatar".data, "logo".data, "icon".data, "button".data]

/-- The method-2 validation of lines 300-302: truthy, starts with `http`,
longer than 30 characters, and free of the exclusion vocabulary
(case-insensitively). -/
def validCandidate (s : Str) : Bool :=
  "http".data.isPrefixOf s && decide (30 < s.length) &&
    !(exclusions.any fun x => containsSubL (lowerL s) x)

/-- Model of `image_urls.add(src)` on the insertion-ordered model of the Python set. -/
def addUrl (urls : List Str) (s : Str) : List Str :=
  if urls.contains s then urls else urls ++ [s]

/-- The validate-and-add step of lines 300-303, applied to the probe
chain's final `src` value. -/
def candStep (urls : List Str) : Option Str → List Str
  | some s => if validCandidate s then addUrl urls s else urls
  | none => urls

/-- The inner `for idx, img in enumerate(images)` loop of method 2: each
non-skipped element is validated and possibly added, then
`if len(image_urls) >= num_images: break` (line 307) runs; skipped elements
bypass that check. -/
def imgLoop (n : Nat) : List ImgElem → List Str → List Str
  | [], urls => urls
  | e :: es, urls =>
    match processElem e with
    | .skipped => imgLoop n es urls
    | .cand s? =>
      let urls' := candStep urls s?
      if n ≤ urls'.length then urls' else imgLoop n es urls'

/-- The CSS scopes of method 2 (line 217), broad to narrow. -/
def selectorNames : List String :=
  ["img", "a img", "div[class*=\"serp\"] img", "div[class*=\"item\"] img"]

/-- The `for selector in [...]` loop of method 2, with the
`if len(image_urls) >= num_images: break` of line 314 after each scope. -/
def selLoop (snap : Snapshot) (n : Nat) : List String → List Str → List Str
  | [], urls => urls
  | sel :: rest, urls =>
    let urls' := imgLoop n (snap.elems sel) urls
    if n ≤ urls'.length then urls' else selLoop snap n rest urls'

/-- The per-anchor body of method 1 (lines 196-205): re-check the href,
extract the `img_url` parameter, and add it when it starts with `http` and
is longer than 30 characters — with no exclusion-vocabulary filtering. -/
def linkStep (urls : List Str) : Option Str → List Str
  | none => urls
  | some href =>
    if !href.isEmpty && containsSubL href "img_url=".data then
      match imgUrlParam href with
      | some v =>
        if "http".data.isPrefixOf v && decide (30 < v.length) then addUrl urls v
        else urls
      | none => urls
    else urls

/-- The per-anchor loop of method 1, with the quota break of line 207. -/
def linkLoop (n : Nat) : List (Option Str) → List Str → List Str
  | [], urls => urls
  | h? :: rest, urls =>
    let urls' := linkStep urls h?
    if n ≤ urls'.length then urls' else linkLoop n rest urls'

/-- One body of the crawl `while` loop, extraction part: method 1 then
method 2, applied to one snapshot (the source interposes no quota guard
between the two methods). -/
def extractSnapshot (snap : Snapshot) (n : Nat) (urls : List Str) : List Str :=
  selLoop snap n selectorNames (linkLoop n snap.anchorHrefs urls)

/-- The constant `max_scroll_attempts` (line 168). -/
def maxScrollAttempts : Nat := 15

/-- Observables of one crawl run: the accumulated URL set (pre-truncation),
the number of loop iterations executed, the number of times the zero-result
recovery branch (lines 324-337) was entered, and the number of actual
recovery clicks performed. -/
structure CrawlResult where
  urls : List Str
  iterations : Nat
  recoveryAttempts : Nat
  clicks : Nat

/-- The crawl `while len(image_urls) < num_images and scroll_attempts <
max_scroll_attempts` loop.  `env sa` is the DOM snapshot the iteration with
`scroll_attempts = sa` observes (after its scroll step, when `sa > 0`);
`fuel` is maintained as `maxScrollAttempts - sa`, so `fuel = 0` is exactly
the exit condition `scroll_attempts < max_scroll_attempts` failing.  After
the extraction, `scroll_attempts += 1`, then the recovery branch fires when
the set is empty and `scroll_attempts == 1`; the click happens when the
`.serp-item, ...` query finds something. -/
def crawlGo (env : Nat → Snapshot) (n : Nat) :
    Nat → Nat → List Str → Nat → Nat → Nat → CrawlResult
  | 0, _, urls, recov, clicks, iters => ⟨urls, iters, recov, clicks⟩
  | fuel + 1, sa, urls, recov, clicks, iters =>
    if urls.length < n then
      let snap := env sa
      let urls' := extractSnapshot snap n urls
      let recovNow := urls'.length = 0 ∧ sa + 1 = 1
      crawlGo env n fuel (sa + 1) urls'
        (if recovNow then recov + 1 else recov)
        (if recovNow ∧ snap.clickableItems then clicks + 1 else clicks)
        (iters + 1)
    else ⟨urls, iters, recov, clicks⟩

/-- One crawl run of `_extract_image_urls`, from the initial state
`image_urls = set()`, `scroll_attempts = 0`. -/
def crawlRun (env : Nat → Snapshot) (n : Nat) : CrawlResult :=
  crawlGo env n maxScrollAttempts 0 [] 0 0 0

/-- Model of `_extract_image_urls(num_images)`: the crawl loop followed by the final
truncation `return list(image_urls)[:num_images]` (line 342). -/
def extractImageUrls (env : Nat → Snapshot) (n : Nat) : List Str :=
  (crawlRun env n).urls.take n

/-!
## Scroll step (`_scroll_page`, lines 140-154)

`heights i` is the value the `i`-th read of `document.body.scrollHeight`
returns.  The source reads once before the `while True:` loop and then, each
turn, scrolls, sleeps, re-reads, and exits only when the newly read height
equals the previous one.  The loop has no other exit, so we give the
embedding a `fuel` budget: `scrollPage heights fuel = none` means the loop
has not terminated within `fuel` turns; `∀ fuel, … = none` is
non-termination. -/

/-- The `while True:` body of `_scroll_page`; `i` indexes the next height
read, `last` is `last_height`. -/
def scrollGo (heights : Nat → Nat) : Nat → Nat → Nat → Option Nat
  | 0, _, _ => none
  | fuel + 1, i, last =>
    let newHeight := heights i
    if newHeight = last then some newHeight
    else scrollGo heights fuel (i + 1) newHeight

/-- Model of `_scroll_page`: initial read, then the convergence loop. -/
def scrollPage (heights : Nat → Nat) (fuel : Nat) : Option Nat :=
  scrollGo heights fuel 1 (heights 0)

/-!
## Download pipeline

The per-URL loop of `search_and_download` (lines 429-444) and
`reverse_image_search` (lines 726-741): `enumerate(image_urls, 1)`,
extension inference, destination name, `_download_image`, and the
`downloaded` counter.  Whether a given transfer succeeds is the
environment's business, supplied as the oracle `fetch i url` (the result of
`_download_image` for item `i`). -/

/-- Terminal state of one download item. -/
inductive Outcome where
  | Succeeded
  | Failed
deriving DecidableEq

/-- One item of the pipeline's output, with its 1-based sequence index,
source URL, destination file name, and outcome. -/
structure DownloadItem where
  sequenceIndex : Nat
  sourceUrl : Str
  destName : Str
  outcome : Outcome

/-- Python `f"{i:03d}"`. -/
def pad3 (i : Nat) : Str :=
  let ds := Nat.toDigits 10 i
  List.replicate (3 - ds.length) '0' ++ ds

/-- Extension inference (lines 431-438 and 728-735): case-insensitive
substring tests for `.png`, `.gif`, `.webp` in that order, default `.jpg`. -/
def inferExt (url : Str) : Str :=
  if containsSubL (lowerL url) ".png".data then ".png".data
  else if containsSubL (lowerL url) ".gif".data then ".gif".data
  else if containsSubL (lowerL url) ".webp".data then ".webp".data
  else ".jpg".data

/-- First-match-wins reading of the spec sentence: the extension is the
first marker of `[.png, .gif, .webp]` occurring (case-insensitively) in the
URL, else `.jpg`.  Stated from the spec's words, to be compared with
`inferExt`. -/
def inferExtSpec (url : Str) : Str :=
  match [".png".data, ".gif".data, ".webp".data].find?
      (fun m => containsSubL (lowerL url) m) with
  | some m => m
  | none => ".jpg".data

/-- The download `for i, url in enumerate(image_urls, 1)` loop, started at
index `i`; returns the per-item records and the `downloaded` counter.
`prefx` is `"image_"` (text search) or `"similar_"` (reverse search). -/
def downloadGo (fetch : Nat → Str → Bool) (prefx : Str) :
    List Str → Nat → List DownloadItem × Nat
  | [], _ => ([], 0)
  | url :: rest, i =>
    let ext := inferExt url
    let ok := fetch i url
    let r := downloadGo fetch prefx rest (i + 1)
    (⟨i, url, prefx ++ pad3 i ++ ext, if ok then .Succeeded else .Failed⟩ :: r.1,
      (if ok then 1 else 0) + r.2)

/-- Aggregate result of the download loop. -/
structure DownloadResult where
  items : List DownloadItem
  succeeded : Nat

/-- The whole download loop, from index 1. -/
def downloadRun (fetch : Nat → Str → Bool) (prefx : Str) (urls : List Str) :
    DownloadResult :=
  ⟨(downloadGo fetch prefx urls 1).1, (downloadGo fetch prefx urls 1).2⟩

/-- Number of items of a download result whose outcome is `Failed`. -/
def failedCount (r : DownloadResult) : Nat :=
  (r.items.filter fun it => decide (it.outcome = Outcome.Failed)).length

/-!
## `_download_image` (lines 114-138)

The transfer outcome is the environment's: `TransferResult.netError` is
`requests.get` itself raising (connection error, timeout), and
`TransferResult.response status chunks` a response whose body
`iter_content` yields as `chunks`.  The filesystem is a path-to-content
map; `open(filepath, 'wb')` truncates/creates, and happens only after
`raise_for_status()` passes.  `ioFail = some k` models an I/O error after
`k` chunks were written (caught by the same `except`, returning `False`
with the file partially written). -/

/-- Result of the `requests.get` call. -/
inductive TransferResult where
  | netError
  | response (status : Nat) (chunks : List (List Nat))

/-- Filesystem model: association of paths to byte contents. -/
abbrev FS := List (Str × List Nat)

/-- Model of `open(path, 'wb')` followed by writing `content`: truncate or create. -/
def setFile (fs : FS) (path : Str) (content : List Nat) : FS :=
  match fs with
  | [] => [(path, content)]
  | (p, c) :: rest =>
    if p = path then (path, content) :: rest else (p, c) :: setFile rest path content

/-- Model of `_download_image(url, filepath)`: any exception inside the `try` returns
`False`; `raise_for_status` raises exactly for `400 <= status < 600`; only
after it passes is the destination opened and the chunk stream written. -/
def downloadImage (resp : TransferResult) (ioFail : Option Nat)
    (filepath : Str) (fs : FS) : Bool × FS :=
  match resp with
  | .netError => (false, fs)
  | .response status chunks =>
    if 400 ≤ status ∧ status < 600 then (false, fs)
    else
      match ioFail with
      | none => (true, setFile fs filepath chunks.flatten)
      | some k => (false, setFile fs filepath ((chunks.take k).flatten))

/-!
## Run skeletons (`search_and_download`, `reverse_image_search`)

Navigation, folder creation and all debug artifacts are external effects and
are folded out; the embedded skeleton keeps every decision point of the
source: the result-marker wait loops, the (non-debug) camera-button search,
the file-input search, the upload, the extractor call, and the download
loop.  `RunResult.extractorCalls` counts the `_extract_image_urls`
invocations, the observable claim C5 is about. -/

/-- Observable outcome of one run: the returned `downloaded` count and how
many times the extractor was invoked. -/
structure RunResult where
  downloaded : Nat
  extractorCalls : Nat
deriving DecidableEq

/-- The result-marker selectors `search_and_download` waits on
(lines 377-384). -/
def searchWaitSelectors : List String :=
  [".serp-item", ".SimpleImage", "img[class*=\"serp\"]", "img[class*=\"thumb\"]",
    ".gallery", "div[class*=\"serp\"]"]

/-- Model of `search_and_download` (lines 344-447, debug off): wait for any result
marker (`present sel` is whether the 5-second `WebDriverWait` on `sel`
succeeds); on timeout return 0 before ever extracting; otherwise extract,
return 0 if nothing was found, else run the download loop and return the
`downloaded` counter. -/
def searchAndDownload (present : String → Bool) (env : Nat → Snapshot)
    (fetch : Nat → Str → Bool) (n : Nat) : RunResult :=
  if searchWaitSelectors.any present = false then ⟨0, 0⟩
  else
    let urls := extractImageUrls env n
    if urls.isEmpty then ⟨0, 1⟩
    else ⟨(downloadRun fetch "image_".data urls).succeeded, 1⟩

/-- One button element handle of the camera-button search. -/
structure BtnElem where
  classAttr : Option Str := none
  ariaLabel : Option Str := none
  btnTitle : Option Str := none

/-- The camera-button CSS selectors (lines 495-511). -/
def cameraSelectors : List String :=
  ["button.CBIr", "button[class*=\"cbir\"]", "button[class*=\"Cbir\"]",
    "button[class*=\"CBIR\"]", ".search-by-image__button",
    "button[aria-label*=\"image\"]", "button[aria-label*=\"Search\"]",
    "[class*=\"camera\"]", "div.cbir-panel__button", "div[class*=\"CbirButton\"]",
    ".SerpHeaderActions button", ".HeaderActions button", "button[type=\"button\"]",
    "div[role=\"button\"]", "span[role=\"button\"]"]

/-- The per-button filter of lines 533-535: class, aria-label or title
contains (case-insensitively) one of the respective word lists. -/
def btnMatches (b : BtnElem) : Bool :=
  (["cbir".data, "camera".data, "upload".data, "image".data].any
      (containsSubL (lowerL (b.classAttr.getD []))))
  || (["image".data, "camera".data, "upload".data, "search".data].any
      (containsSubL (lowerL (b.ariaLabel.getD []))))
  || (["image".data, "camera".data, "upload".data].any
      (containsSubL (lowerL (b.btnTitle.getD []))))

/-- Method 1 of the camera search (lines 517-548): first selector whose
element list contains a matching button wins. -/
def findCamera (buttons : String → List BtnElem) : List String → Option BtnElem
  | [] => none
  | sel :: rest =>
    match (buttons sel).find? btnMatches with
    | some b => some b
    | none => findCamera buttons rest

/-- Resolution of the camera affordance: a matched button, the
`camera_button = "skip"` marker (a file input already present, lines
579-588), or nothing. -/
inductive CameraOutcome where
  | btn (b : BtnElem)
  | skipClick
  | notFound

/-- Lines 517-608, debug off (the XPath method 2 is debug-gated and
omitted): CSS search, then the direct `input[type="file"]` probe. -/
def resolveCamera (buttons : String → List BtnElem)
    (inputCount : String → Nat) : CameraOutcome :=
  match findCamera buttons cameraSelectors with
  | some b => .btn b
  | none =>
    if 0 < inputCount "input[type=\"file\"]" then .skipClick else .notFound

/-- The file-input selectors (lines 632-636). -/
def fileInputSelectors : List String :=
  ["input[type=\"file\"]", "input[name=\"upfile\"]", "input[class*=\"file\"]"]

/-- The file-input search loop (lines 641-652): whether any selector finds
an element. -/
def findFileInput (inputCount : String → Nat) : List String → Bool
  | [] => false
  | sel :: rest => if 0 < inputCount sel then true else findFileInput inputCount rest

/-- The result-marker selectors `reverse_image_search` waits on after the
upload (lines 683-689). -/
def reverseWaitSelectors : List String :=
  [".serp-item", "img[class*=\"serp\"]", "img[class*=\"thumb\"]",
    "a[href*=\"img_url=\"]", "div[class*=\"serp\"]"]

/-- Environment of one `reverse_image_search` run. -/
structure ReverseEnv where
  imageExists : Bool
  buttons : String → List BtnElem
  inputCount : String → Nat
  clickOk : Bool
  uploadOk : Bool
  present : String → Bool
  dom : Nat → Snapshot

/-- Model of `reverse_image_search` from the file-input search on (lines 630-744):
no input found, a failed upload, or a post-upload wait timeout each return
0 before extraction; otherwise extract and download. -/
def reverseAfterClick (env : ReverseEnv) (fetch : Nat → Str → Bool)
    (n : Nat) : RunResult :=
  if findFileInput env.inputCount fileInputSelectors = false then ⟨0, 0⟩
  else if env.uploadOk = false then ⟨0, 0⟩
  else if reverseWaitSelectors.any env.present = false then ⟨0, 0⟩
  else
    let urls := extractImageUrls env.dom n
    if urls.isEmpty then ⟨0, 1⟩
    else ⟨(downloadRun fetch "similar_".data urls).succeeded, 1⟩

/-- Model of `reverse_image_search` (lines 449-744, debug off): missing input file,
no camera affordance, or a failed camera click each return 0; then the
upload-and-wait tail. -/
def reverseImageSearch (env : ReverseEnv) (fetch : Nat → Str → Bool)
    (n : Nat) : RunResult :=
  if env.imageExists = false then ⟨0, 0⟩
  else
    match resolveCamera env.buttons env.inputCount with
    | .notFound => ⟨0, 0⟩
    | .btn _ =>
      if env.clickOk = false then ⟨0, 0⟩ else reverseAfterClick env fetch n
    | .skipClick => reverseAfterClick env fetch n

/-!
## Basic facts about the crawl loop
-/

theorem crawlGo_zero (env : Nat → Snapshot) (n : Nat) (sa : Nat) (urls : List Str)
    (recov clicks iters : Nat) :
    crawlGo env n 0 sa urls recov clicks iters = ⟨urls, iters, recov, clicks⟩ := rfl

theorem crawlGo_succ (env : Nat → Snapshot) (n : Nat) (fuel sa : Nat) (urls : List Str)
    (recov clicks iters : Nat) :
    crawlGo env n (fuel + 1) sa urls recov clicks iters =
      if urls.length < n then
        crawlGo env n fuel (sa + 1) (extractSnapshot (env sa) n urls)
          (if (extractSnapshot (env sa) n urls).length = 0 ∧ sa + 1 = 1 then recov + 1
            else recov)
          (if ((extractSnapshot (env sa) n urls).length = 0 ∧ sa + 1 = 1) ∧
              (env sa).clickableItems then clicks + 1 else clicks)
          (iters + 1)
      else ⟨urls, iters, recov, clicks⟩ := rfl

theorem crawlGo_iters_le (env : Nat → Snapshot) (n : Nat) :
    ∀ (fuel sa : Nat) (urls : List Str) (recov clicks iters : Nat),
      (crawlGo env n fuel sa urls recov clicks iters).iterations ≤ iters + fuel := by
  intro fuel
  induction fuel with
  | zero =>
    intro sa urls recov clicks iters
    simp [crawlGo_zero]
  | succ f ih =>
    intro sa urls recov clicks iters
    rw [crawlGo_succ]
    split
    · exact (ih _ _ _ _ _).trans (by omega)
    · simp

/-- C3: the crawl loop of `_extract_image_urls` performs at most
`max_scroll_attempts = 15` iterations, for every DOM environment and every
requested number of images; on a page that never yields anything the loop
runs the full 15 iterations and exits at the bound. -/
theorem crawl_iterations_le (env : Nat → Snapshot) (n : Nat) :
    ((crawlRun env n).iterations ≤ maxScrollAttempts ∧ maxScrollAttempts = 15) ∧
      (crawlRun (fun _ => ⟨[], fun _ => [], false⟩) 1).iterations = maxScrollAttempts := by
  refine ⟨⟨?_, rfl⟩, by decide⟩
  simpa [crawlRun] using crawlGo_iters_le env n maxScrollAttempts 0 [] 0 0 0

/-- C6: the list `_extract_image_urls` returns after the final truncation
`list(image_urls)[:num_images]` has length at most `num_images`, whatever
the accumulated set was; the cap is the single take at the handoff point,
applied to the unrestricted accumulator. -/
theorem extract_capped (env : Nat → Snapshot) (n : Nat) :
    (extractImageUrls env n).length ≤ n ∧
      extractImageUrls env n = (crawlRun env n).urls.take n := by
  refine ⟨?_, rfl⟩
  simp only [extractImageUrls]
  exact List.length_take_le n _

/-!
## The scroll step is a convergence loop (C2)
-/

theorem scrollGo_id_none (fuel : Nat) :
    ∀ (i last : Nat), last < i → scrollGo (fun k => k) fuel i last = none := by
  induction fuel with
  | zero => intro i last _; rfl
  | succ f ih =>
    intro i last h
    simp only [scrollGo]
    rw [if_neg (by omega)]
    exact ih (i + 1) i (by omega)

/-- C2 (evaluation at the failing input): on a page whose reported height
strictly increases forever (`heights k = k`), `_scroll_page` never exits its
`while True:` loop, whatever iteration budget it is given — the scroll
sub-step is a wait-for-stable-height convergence loop with its own
(unbounded) termination condition, not a single scroll-and-settle. -/
theorem scrollPage_diverges (fuel : Nat) : scrollPage (fun k => k) fuel = none :=
  scrollGo_id_none fuel 1 0 (by omega)

/-!
## Extension inference (C9)
-/

/-- C9: the download pipeline's extension inference equals the first-match-
wins scan of the markers `.png`, `.gif`, `.webp` (case-insensitive substring
tests against the URL, in that checked order), with default `.jpg`. -/
theorem inferExt_refines (url : Str) : inferExt url = inferExtSpec url := by
  unfold inferExt inferExtSpec
  cases hp : containsSubL (lowerL url) ".png".data <;>
    cases hg : containsSubL (lowerL url) ".gif".data <;>
      cases hw : containsSubL (lowerL url) ".webp".data <;>
        simp [List.find?, hp, hg, hw]

/-!
## `_download_image` before streaming (C10)
-/

/-- C10: when `requests.get` itself fails, or the response status makes
`raise_for_status` raise (`400 <= status < 600`), `_download_image` returns
`False` and the filesystem is untouched: the destination is opened only
after the status check passes. -/
theorem downloadImage_preStream (resp : TransferResult) (ioFail : Option Nat)
    (filepath : Str) (fs : FS)
    (h : resp = TransferResult.netError ∨
      ∃ status chunks, resp = TransferResult.response status chunks ∧
        400 ≤ status ∧ status < 600) :
    downloadImage resp ioFail filepath fs = (false, fs) := by
  rcases h with h | ⟨st, ch, rfl, h1, h2⟩
  · subst h; rfl
  · simp only [downloadImage]
    rw [if_pos ⟨h1, h2⟩]

/-- Witness for C10: a concrete failed transfer leaves a concrete
filesystem unchanged. -/
theorem downloadImage_preStream_witness :
    downloadImage TransferResult.netError none "image_001.jpg".data [] = (false, []) :=
  downloadImage_preStream _ _ _ _ (Or.inl rfl)

/-!
## Candidate URL invariants (C1)

Both add sites of the extractor guard the scheme and length checks, so every
accumulated URL starts with `http` and is longer than 30 characters.  The
exclusion-vocabulary check, however, guards only the method-2 add site
(line 302); method 1 (line 202) adds the decoded `img_url` value with no
exclusion filtering — see the counterexample below.
-/

/-- The Candidate URL facts that hold at every add site: scheme prefix and
minimum length. -/
def goodUrl (u : Str) : Prop :=
  "http".data.isPrefixOf u = true ∧ 30 < u.length

theorem addUrl_mem {urls : List Str} {s u : Str} (h : u ∈ addUrl urls s) :
    u ∈ urls ∨ u = s := by
  unfold addUrl at h
  split at h
  · exact .inl h
  · rcases List.mem_append.1 h with h | h
    · exact .inl h
    · exact .inr (by simpa using h)

theorem linkStep_good {urls : List Str} {h? : Option Str}
    (hinv : ∀ u ∈ urls, goodUrl u) : ∀ u ∈ linkStep urls h?, goodUrl u := by
  intro u hu
  cases h? with
  | none => exact hinv u hu
  | some href =>
    simp only [linkStep] at hu
    split at hu
    · split at hu
      next v heq =>
        split at hu
        next hcond =>
          rcases addUrl_mem hu with h | rfl
          · exact hinv u h
          · rw [Bool.and_eq_true, decide_eq_true_eq] at hcond
            exact ⟨hcond.1, hcond.2⟩
        next => exact hinv u hu
      next heq => exact hinv u hu
    · exact hinv u hu

theorem validCandidate_good {s : Str} (h : validCandidate s = true) : goodUrl s := by
  unfold validCandidate at h
  rw [Bool.and_eq_true, Bool.and_eq_true, decide_eq_true_eq] at h
  exact ⟨h.1.1, h.1.2⟩

theorem candStep_good {urls : List Str} {s? : Option Str}
    (hinv : ∀ u ∈ urls, goodUrl u) : ∀ u ∈ candStep urls s?, goodUrl u := by
  intro u hu
  cases s? with
  | none => exact hinv u hu
  | some s =>
    simp only [candStep] at hu
    split at hu
    next hval =>
      rcases addUrl_mem hu with h | rfl
      · exact hinv u h
      · exact validCandidate_good hval
    next => exact hinv u hu

theorem linkLoop_good (n : Nat) : ∀ (hs : List (Option Str)) (urls : List Str),
    (∀ u ∈ urls, goodUrl u) → ∀ u ∈ linkLoop n hs urls, goodUrl u := by
  intro hs
  induction hs with
  | nil => intro urls hinv u hu; exact hinv u (by simpa [linkLoop] using hu)
  | cons h? rest ih =>
    intro urls hinv u hu
    simp only [linkLoop] at hu
    split at hu
    · exact linkStep_good hinv u hu
    · exact ih _ (linkStep_good hinv) u hu

theorem imgLoop_good (n : Nat) : ∀ (es : List ImgElem) (urls : List Str),
    (∀ u ∈ urls, goodUrl u) → ∀ u ∈ imgLoop n es urls, goodUrl u := by
  intro es
  induction es with
  | nil => intro urls hinv u hu; exact hinv u (by simpa [imgLoop] using hu)
  | cons e rest ih =>
    intro urls hinv u hu
    simp only [imgLoop] at hu
    split at hu
    · exact ih _ hinv u hu
    · split at hu
      · exact candStep_good hinv u hu
      · exact ih _ (candStep_good hinv) u hu

theorem selLoop_good (snap : Snapshot) (n : Nat) :
    ∀ (sels : List String) (urls : List Str),
      (∀ u ∈ urls, goodUrl u) → ∀ u ∈ selLoop snap n sels urls, goodUrl u := by
  intro sels
  induction sels with
  | nil => intro urls hinv u hu; exact hinv u (by simpa [selLoop] using hu)
  | cons sel rest ih =>
    intro urls hinv u hu
    simp only [selLoop] at hu
    split at hu
    · exact imgLoop_good n _ urls hinv u hu
    · exact ih _ (imgLoop_good n _ urls hinv) u hu

theorem extractSnapshot_good (snap : Snapshot) (n : Nat) (urls : List Str)
    (hinv : ∀ u ∈ urls, goodUrl u) :
    ∀ u ∈ extractSnapshot snap n urls, goodUrl u :=
  selLoop_good snap n _ _ (linkLoop_good n _ _ hinv)

theorem crawlGo_good (env : Nat → Snapshot) (n : Nat) :
    ∀ (fuel sa : Nat) (urls : List Str) (recov clicks iters : Nat),
      (∀ u ∈ urls, goodUrl u) →
      ∀ u ∈ (crawlGo env n fuel sa urls recov clicks iters).urls, goodUrl u := by
  intro fuel
  induction fuel with
  | zero =>
    intro sa urls recov clicks iters hinv u hu
    exact hinv u (by simpa [crawlGo_zero] using hu)
  | succ f ih =>
    intro sa urls recov clicks iters hinv u hu
    rw [crawlGo_succ] at hu
    split at hu
    · exact ih _ _ _ _ _ (extractSnapshot_good _ n urls hinv) u hu
    · exact hinv u hu

/-- C1 (amended): every string `_extract_image_urls` returns is non-empty,
starts with `http`, and is longer than 30 characters.  (The full claim
fails: the exclusion vocabulary is enforced only on attribute-mined URLs,
not on link-mined ones — see the counterexample below.) -/
theorem extractImageUrls_valid (env : Nat → Snapshot) (n : Nat) (u : Str)
    (hu : u ∈ extractImageUrls env n) :
    u ≠ [] ∧ "http".data.isPrefixOf u = true ∧ 30 < u.length := by
  have hg : goodUrl u := by
    refine crawlGo_good env n maxScrollAttempts 0 [] 0 0 0 (by simp) u ?_
    exact List.mem_of_mem_take (by simpa [extractImageUrls, crawlRun] using hu)
  refine ⟨?_, hg.1, hg.2⟩
  intro h
  rw [h] at hg
  simpa using hg.2

/-- A results page whose only extractable URL is an avatar image exposed
through a link's `img_url` parameter. -/
def c1Href : Str :=
  "https://yandex.com/images/search?img_url=http://pics.example.com/user/avatar_collection_12345.jpg&rpt=simage".data

/-- The decoded `img_url` value of `c1Href`: 56 characters, `http` scheme,
contains the exclusion word `avatar`. -/
def c1Url : Str :=
  "http://pics.example.com/user/avatar_collection_12345.jpg".data

/-- DOM environment for the C1 counterexample: one matching anchor, no
image elements. -/
def c1Env : Nat → Snapshot := fun _ => ⟨[some c1Href], fun _ => [], false⟩

/-- C1 counterexample: `_extract_image_urls` returns a URL containing the
exclusion-vocabulary word `avatar`, because method 1 (link mining) applies
no exclusion filtering. -/
theorem extract_exclusion_violated :
    c1Url ∈ extractImageUrls c1Env 1 ∧
      containsSubL (lowerL c1Url) "avatar".data = true := by decide

/-- Witness for the amended C1 theorem at a concrete run. -/
theorem extractImageUrls_valid_witness :
    c1Url ≠ [] ∧ "http".data.isPrefixOf c1Url = true ∧ 30 < c1Url.length :=
  extractImageUrls_valid c1Env 1 c1Url (by decide)

/-!
## Quota short-circuiting overshoots by at most one (C7)

Each element loop checks the quota only after fully processing an element,
and no guard separates method 1 from method 2, so a snapshot whose method-1
pass already meets the quota still probes (and may add) the first non-skipped
element of method 2's first selector.  The accumulated set therefore exceeds
the quota by at most one, and the claimed immediate short-circuit fails —
see the counterexample.
-/

theorem addUrl_length (urls : List Str) (s : Str) :
    (addUrl urls s).length ≤ urls.length + 1 := by
  unfold addUrl
  split <;> simp

theorem linkStep_length (urls : List Str) (h? : Option Str) :
    (linkStep urls h?).length ≤ urls.length + 1 := by
  cases h? with
  | none => simp [linkStep]
  | some href =>
    simp only [linkStep]
    split
    · split
      next v heq =>
        split
        · apply addUrl_length
        · simp
      next heq => simp
    · simp

theorem candStep_length (urls : List Str) (s? : Option Str) :
    (candStep urls s?).length ≤ urls.length + 1 := by
  cases s? with
  | none => simp [candStep]
  | some s =>
    simp only [candStep]
    split
    · apply addUrl_length
    · simp

theorem linkLoop_le (n : Nat) : ∀ (hs : List (Option Str)) (urls : List Str),
    urls.length < n → (linkLoop n hs urls).length ≤ n := by
  intro hs
  induction hs with
  | nil => intro urls h; simpa [linkLoop] using Nat.le_of_lt h
  | cons h? rest ih =>
    intro urls hlt
    simp only [linkLoop]
    split
    next hge =>
      have h1 := linkStep_length urls h?
      omega
    next hlt2 =>
      exact ih _ (by omega)

theorem imgLoop_le (n : Nat) : ∀ (es : List ImgElem) (urls : List Str),
    urls.length ≤ n → (imgLoop n es urls).length ≤ n + 1 := by
  intro es
  induction es with
  | nil => intro urls h; simpa [imgLoop] using Nat.le_succ_of_le h
  | cons e rest ih =>
    intro urls hle
    simp only [imgLoop]
    split
    next heq => exact ih _ hle
    next s? heq =>
      split
      next hge =>
        have h1 := candStep_length urls s?
        omega
      next hlt => exact ih _ (by omega)

theorem selLoop_le (snap : Snapshot) (n : Nat) :
    ∀ (sels : List String) (urls : List Str),
      urls.length ≤ n → (selLoop snap n sels urls).length ≤ n + 1 := by
  intro sels
  induction sels with
  | nil => intro urls h; simpa [selLoop] using Nat.le_succ_of_le h
  | cons sel rest ih =>
    intro urls hle
    simp only [selLoop]
    split
    next hge => exact imgLoop_le n _ urls hle
    next hlt => exact ih _ (by omega)

theorem extractSnapshot_le (snap : Snapshot) (n : Nat) (urls : List Str)
    (h : urls.length < n) : (extractSnapshot snap n urls).length ≤ n + 1 := by
  unfold extractSnapshot
  exact selLoop_le snap n _ _ (linkLoop_le n _ _ h)

theorem crawlGo_le (env : Nat → Snapshot) (n : Nat) :
    ∀ (fuel sa : Nat) (urls : List Str) (recov clicks iters : Nat),
      urls.length ≤ n + 1 →
      (crawlGo env n fuel sa urls recov clicks iters).urls.length ≤ n + 1 := by
  intro fuel
  induction fuel with
  | zero => intro sa urls recov clicks iters h; simpa [crawlGo_zero] using h
  | succ f ih =>
    intro sa urls recov clicks iters h
    rw [crawlGo_succ]
    split
    next hlt => exact ih _ _ _ _ _ (extractSnapshot_le _ n urls hlt)
    next => exact h

/-- C7 (amended): within one snapshot the element loops break only after the
element in hand has been fully processed, and method 2 is still entered when
method 1 already met the quota, so the accumulated set may receive one
further URL after the quota is reached — but never more: the accumulation
exceeds `num_images` by at most one (the final truncation then restores the
cap). -/
theorem crawl_overshoot_le (env : Nat → Snapshot) (n : Nat) :
    (crawlRun env n).urls.length ≤ n + 1 :=
  crawlGo_le env n maxScrollAttempts 0 [] 0 0 0 (by simp)

/-- Anchor for the C7 counterexample: its `img_url` value meets the quota
by itself. -/
def c7Href : Str :=
  "https://yandex.com/images/search?img_url=http://pics.example.com/full/mountain_view_20240101.jpg".data

/-- The link-mined URL of the C7 counterexample. -/
def c7Url1 : Str :=
  "http://pics.example.com/full/mountain_view_20240101.jpg".data

/-- A second, distinct valid URL carried by an `<img>` element's `src`. -/
def c7Url2 : Str :=
  "http://pics.example.com/full/lake_panorama_20240202.jpg".data

/-- DOM environment for the C7 counterexample: the anchor satisfies the
quota of 1 in method 1, yet method 2's first `img` element is still probed. -/
def c7Env : Nat → Snapshot := fun _ =>
  ⟨[some c7Href],
    fun sel => if sel = "img" then [{ attrs := [("src", c7Url2)] }] else [],
    false⟩

/-- C7 counterexample: with quota 1 already satisfied by method 1, the same
snapshot's method 2 still probes the first image element and adds its URL —
the extraction does not short-circuit as soon as the quota is reached. -/
theorem extract_no_short_circuit :
    (crawlRun c7Env 1).urls = [c7Url1, c7Url2] ∧
      (crawlRun c7Env 1).iterations = 1 := by decide

/-!
## The recovery fallback is one-shot (C8)
-/

theorem crawlGo_frozen (env : Nat → Snapshot) (n : Nat) :
    ∀ (fuel sa : Nat) (urls : List Str) (recov clicks iters : Nat), 1 ≤ sa →
      (crawlGo env n fuel sa urls recov clicks iters).recoveryAttempts = recov ∧
      (crawlGo env n fuel sa urls recov clicks iters).clicks = clicks := by
  intro fuel
  induction fuel with
  | zero => intro sa urls recov clicks iters _; simp [crawlGo_zero]
  | succ f ih =>
    intro sa urls recov clicks iters hsa
    rw [crawlGo_succ]
    split
    · have hne : ¬((extractSnapshot (env sa) n urls).length = 0 ∧ sa + 1 = 1) := by
        omega
      rw [if_neg hne, if_neg fun h => hne h.1]
      exact ih (sa + 1) _ _ _ _ (by omega)
    · simp

/-- C8: the recovery branch (click the first recognizable result item) is
entered exactly when the very first extraction attempt yields zero
candidates (and the loop body ran at all, i.e. `0 < n`), hence at most once
per run and never when the first attempt yields a candidate; the click
itself additionally requires a clickable result item to exist. -/
theorem recovery_oneShot (env : Nat → Snapshot) (n : Nat) :
    (crawlRun env n).recoveryAttempts
        = (if 0 < n ∧ extractSnapshot (env 0) n [] = [] then 1 else 0) ∧
      (crawlRun env n).clicks
        = (if (0 < n ∧ extractSnapshot (env 0) n [] = []) ∧ (env 0).clickableItems
            then 1 else 0) := by
  have hstep : crawlRun env n = crawlGo env n (14 + 1) 0 [] 0 0 0 := rfl
  rw [hstep, crawlGo_succ]
  by_cases hn : ([] : List Str).length < n
  · rw [if_pos hn]
    have hn' : 0 < n := by simpa using hn
    obtain ⟨hr, hc⟩ := crawlGo_frozen env n 14 1 (extractSnapshot (env 0) n [])
      (if (extractSnapshot (env 0) n []).length = 0 ∧ 0 + 1 = 1 then 0 + 1 else 0)
      (if ((extractSnapshot (env 0) n []).length = 0 ∧ 0 + 1 = 1) ∧
          (env 0).clickableItems then 0 + 1 else 0)
      1 (by omega)
    rw [hr, hc]
    constructor
    · by_cases hz : extractSnapshot (env 0) n [] = [] <;>
        simp [hz, hn', List.length_eq_zero]
    · by_cases hz : extractSnapshot (env 0) n [] = [] <;>
        by_cases hcl : (env 0).clickableItems <;>
          simp [hz, hn', hcl, List.length_eq_zero]
  · rw [if_neg hn]
    have hn0 : ¬ 0 < n := by simpa using hn
    simp [hn0]

/-!
## Download pipeline shape (C4)
-/

theorem downloadGo_spec (fetch : Nat → Str → Bool) (prefx : Str) :
    ∀ (urls : List Str) (i : Nat),
      (downloadGo fetch prefx urls i).1.length = urls.length ∧
      (downloadGo fetch prefx urls i).1.map DownloadItem.sourceUrl = urls ∧
      (downloadGo fetch prefx urls i).1.map DownloadItem.sequenceIndex
          = List.range' i urls.length ∧
      (downloadGo fetch prefx urls i).2 +
          ((downloadGo fetch prefx urls i).1.filter
            fun it => decide (it.outcome = Outcome.Failed)).length
        = urls.length := by
  intro urls
  induction urls with
  | nil => intro i; simp [downloadGo]
  | cons url rest ih =>
    intro i
    obtain ⟨h1, h2, h3, h4⟩ := ih (i + 1)
    simp only [downloadGo, List.map_cons, List.length_cons, List.filter_cons, h1, h2, h3]
    refine ⟨trivial, trivial, by rw [List.range'_succ], ?_⟩
    cases hk : fetch i url <;> simp [hk] <;> omega

/-- C4: for `N` input URLs the download loop produces exactly `N` item
records, attempting each URL exactly once in input order with
`sequenceIndex` running `1..N`; a failed transfer marks only its own item
`Failed` and the remaining URLs are still attempted, and
`succeeded + failedCount = attempted = N`. -/
theorem downloadRun_spec (fetch : Nat → Str → Bool) (prefx : Str) (urls : List Str) :
    (downloadRun fetch prefx urls).items.length = urls.length ∧
    (downloadRun fetch prefx urls).items.map DownloadItem.sourceUrl = urls ∧
    (downloadRun fetch prefx urls).items.map DownloadItem.sequenceIndex
        = List.range' 1 urls.length ∧
    (downloadRun fetch prefx urls).succeeded + failedCount (downloadRun fetch prefx urls)
        = urls.length := by
  obtain ⟨h1, h2, h3, h4⟩ := downloadGo_spec fetch prefx urls 1
  exact ⟨h1, h2, h3, h4⟩

/-!
## Navigation timeout yields zero without extraction (C5)
-/

/-- C5: when no recognized result marker ever renders within the wait bound
(`present s = false` for every waited-on selector), both
`search_and_download` and `reverse_image_search` return the ordinary value
`0` with the extractor never invoked — the embedded runs are total
functions, so the outcome is a returned value, not an exception. -/
theorem navTimeout_zero (present : String → Bool) (dom : Nat → Snapshot)
    (fetch₁ fetch₂ : Nat → Str → Bool) (n m : Nat) (envR : ReverseEnv)
    (h1 : ∀ s ∈ searchWaitSelectors, present s = false)
    (h2 : ∀ s ∈ reverseWaitSelectors, envR.present s = false) :
    searchAndDownload present dom fetch₁ n = ⟨0, 0⟩ ∧
      reverseImageSearch envR fetch₂ m = ⟨0, 0⟩ := by
  have hanyS : searchWaitSelectors.any present = false := by
    rw [List.any_eq_false]
    intro s hs
    simp [h1 s hs]
  have hanyR : reverseWaitSelectors.any envR.present = false := by
    rw [List.any_eq_false]
    intro s hs
    simp [h2 s hs]
  have hAfter : reverseAfterClick envR fetch₂ m = ⟨0, 0⟩ := by
    unfold reverseAfterClick
    simp [hanyR]
  constructor
  · unfold searchAndDownload
    rw [if_pos hanyS]
  · unfold reverseImageSearch
    split
    · rfl
    · split
      · rfl
      · split
        · rfl
        · exact hAfter
      · exact hAfter

/-- A reverse-search environment whose post-upload results wait always
times out. -/
def c5ReverseEnv : ReverseEnv where
  imageExists := true
  buttons := fun _ => []
  inputCount := fun _ => 1
  clickOk := true
  uploadOk := true
  present := fun _ => false
  dom := fun _ => ⟨[], fun _ => [], false⟩

/-- Witness for C5 at concrete environments. -/
theorem navTimeout_zero_witness :
    searchAndDownload (fun _ => false) (fun _ => ⟨[], fun _ => [], false⟩)
        (fun _ _ => false) 5 = ⟨0, 0⟩ ∧
      reverseImageSearch c5ReverseEnv (fun _ _ => false) 5 = ⟨0, 0⟩ :=
  navTimeout_zero (fun _ => false) (fun _ => ⟨[], fun _ => [], false⟩)
    (fun _ _ => false) (fun _ _ => false) 5 5 c5ReverseEnv
    (fun _ _ => rfl) (fun _ _ => rfl)

end YandexScraper
